import Mathlib

/-!
Verification of the python-irclib IRC client library (src/connection.py and
src/session.py) against its natural-language specification.

The Python code is shallowly embedded: each relevant Python function becomes a
Lean definition with the same control flow; mutable attributes become fields of
explicit state records; Python exceptions become an explicit error component
(`PyErr`).  External collaborator modules that are not part of src/ (the
`utils` module and the tracker object) are either taken as function parameters
or modelled from the specification, with a doc comment saying so.
-/

/-- Python exception kinds relevant to the embedded code paths.
`attributeError` arises from attribute access on a missing attribute or on
`None`; `typeError` from calling a non-callable (such as a namedtuple string
field invoked as a method) or subscripting `None`; `indexError` from
subscripting a sequence out of range; `serverNotConnected` is the library's
`ServerNotConnectedError`, raised by `send_raw_instant` on a missing
socket. -/
inductive PyErr
  | attributeError
  | typeError
  | indexError
  | serverNotConnected
deriving DecidableEq, Repr

/-- Python `str.lower()` (ASCII case folding suffices for IRC commands and
names), via the character list so that terms reduce. -/
def pyToLower (s : String) : String :=
  String.mk (s.toList.map Char.toLower)

/-- The UTF-8 encoded byte length of a string, `len(s.encode('utf-8'))`. -/
def utf8Len (s : String) : Nat :=
  (s.toList.map Char.utf8Size).sum

/-- Accumulator-based word scanner: runs of separator characters split the
input into words, and leading or trailing runs produce no empty words.
`cur` holds the characters of the word in progress, reversed. -/
def wordsAux (p : Char → Bool) (cur : List Char) : List Char → List (List Char)
  | [] => if cur = [] then [] else [cur.reverse]
  | c :: cs =>
    if p c then
      if cur = [] then wordsAux p [] cs else cur.reverse :: wordsAux p [] cs
    else wordsAux p (c :: cur) cs

/-- Python `str.split()` with no separator: split on runs of whitespace and
drop empty pieces. -/
def pySplitWs (s : String) : List String :=
  (wordsAux (fun c => c.isWhitespace) [] s.toList).map String.mk

/-- Python `l[i]` on a list value: out-of-range raises `IndexError`. -/
def pyGetL (l : List String) (i : Nat) : Except PyErr String :=
  match l.get? i with
  | some v => .ok v
  | none => .error .indexError

/-- A low-level IRC event, embedding the `Event` namedtuple of
src/connection.py (eventtype, source, target, argument); the constructor
replaces a `None` argument list with `[]`. -/
structure LowEvent where
  eventtype : String
  source : Option String
  target : Option String
  argument : List String
deriving DecidableEq, Repr

/-- The per-connection state that `ServerConnection.process_data` can read
for one line.  The `self.sqlite` tracker attribute is never assigned (the
assignment in `ServerConnection.__init__`, src/connection.py line 419, is
commented out), but no access to it is ever reached: every line's processing
aborts inside the first event dispatch (see `processLineF`). -/
structure ConnPD where
  real_server_name : String
  real_nickname : String
  featurelist : List (String × String)
deriving DecidableEq, Repr

/-- `ServerConnection.get_server_name` (src/connection.py lines 519-529). -/
def getServerName (c : ConnPD) : String :=
  if c.real_server_name ≠ "" then c.real_server_name else ""

/-- Modelled from the spec: `utils.nm_to_n` (hostmask-to-nick extraction) is a
collaborator whose module is not in src/; a hostmask `nick!user@host` maps to
`nick`, so the extraction keeps everything before the first `!`. -/
def nm_to_n (s : String) : String :=
  String.mk (s.toList.takeWhile (fun c => c ≠ '!'))

/-- Result of processing one decoded line: the low-level events dispatched (in
dispatch order), the connection state afterwards, and the uncaught exception
if the line's processing raised one (there is no handler around the line loop
of `process_data`, so such an exception propagates out). -/
structure PDResult where
  events : List LowEvent
  state : ConnPD
  err : Option PyErr
deriving DecidableEq, Repr

/-- One elementary mode change `(sign, mode letter, parameter-or-null)`, the
tuple shape produced by `ServerConnection._parse_modes` (see
src/session.py lines 518-520). -/
structure ModeChange where
  sign : Char
  letter : Char
  param : Option String
deriving DecidableEq, Repr

/-- Modelled from the spec: the walk of `ServerConnection._parse_modes`, which
is not present in src/ (only its callers in src/session.py are).  Spec §4.1.8:
walk the mode-letter string left to right keeping a current sign (`+`/`-`,
initially `+`); a sign character only updates the sign; any other letter
yields one `(sign, letter, param-or-null)` tuple, and a letter in `argmodes`
consumes the next unconsumed target token, advancing the cursor regardless of
whether a mutation occurred. -/
def walkModes (argmodes : List Char) : Char → List Char → List String → List ModeChange
  | _, [], _ => []
  | sign, ch :: cs, targets =>
    if ch = '+' ∨ ch = '-' then walkModes argmodes ch cs targets
    else if ch ∈ argmodes then
      ⟨sign, ch, targets.head?⟩ :: walkModes argmodes sign cs targets.tail
    else
      ⟨sign, ch, none⟩ :: walkModes argmodes sign cs targets

/-- Modelled from the spec: `ServerConnection._parse_modes` on the joined
argument string ` `.join(arguments): the first whitespace token is the mode
word, the remaining tokens are the parameter cursor fed to `walkModes`. -/
def parseModes (argmodes : List Char) (s : String) : List ModeChange :=
  match pySplitWs s with
  | [] => []
  | modeword :: targets => walkModes argmodes '+' modeword.toList targets

/-- The re-emitted single-change event of `Session._handle_event`
(src/session.py lines 268-279): same eventtype, source and target, argument
`[sign+mode, param]` with a falsy parameter (None or the empty string)
replaced by the empty string. -/
def reEmit (e : LowEvent) (m : ModeChange) : LowEvent :=
  ⟨e.eventtype, e.source, e.target, [String.mk [m.sign, m.letter], m.param.getD ""]⟩

/-- Fuel-indexed embedding of the mode-preparsing recursion of
`Session._handle_event` (src/session.py lines 264-284): the returned list
holds, in dispatch order, the low-level events that reach the
`HighEvent.from_low_event` translation.  A `mode`/`umode` event whose joined
arguments decode to more than one elementary change is split and each piece
re-handled recursively; anything else is translated directly.  The recursion
depth on re-emitted events is at most one extra level (their mode word is one
sign plus one letter, see `walkModes`), so fuel 2 reproduces the source. -/
def sessionPreparseAux (am : List Char) : Nat → LowEvent → List LowEvent
  | 0, _ => []
  | n + 1, e =>
    if e.eventtype = "mode" ∨ e.eventtype = "umode" then
      let ms := parseModes am (String.intercalate " " e.argument)
      if 1 < ms.length then
        (ms.map (fun m => sessionPreparseAux am n (reEmit e m))).flatten
      else [e]
    else [e]

/-- The low-level events that `Session._handle_event` hands to high-level
translation for one incoming event. -/
def sessionPreparse (am : List Char) (e : LowEvent) : List LowEvent :=
  sessionPreparseAux am 2 e

/-- The `Nickname` value of src/session.py: in `nickname_only` mode the
constructor stores the given object as `name` and never assigns the `host`
attribute (embedded as `none`); otherwise `name` is the collaborator
extraction `utils.nm_to_n(host)` and `host` is the raw hostmask.  The `name`
is an `Option` because `nickname_only` accepts the `None` target of some
events unchanged. -/
structure NicknameL where
  name : Option String
  host : Option String
deriving DecidableEq, Repr

/-- `Nickname.__init__` (src/session.py lines 573-588).  Calling
`utils.nm_to_n` on `None` (a source-less event) raises `AttributeError`
(`None` has no `split`). -/
def mkNickname (host : Option String) (nickname_only : Bool) : Except PyErr NicknameL :=
  if nickname_only then .ok ⟨host, none⟩
  else
    match host with
    | none => .error .attributeError
    | some h => .ok ⟨some (nm_to_n h), some h⟩

/-- The value stored in the `modes` attribute of a high-level mode event
(src/session.py lines 522-527): the whole tuple list when more than one
change was parsed, else only the first tuple. -/
inductive ModesField
  | one (m : ModeChange)
  | many (l : List ModeChange)
deriving DecidableEq, Repr

/-- The high-level event record of src/session.py (`HighEvent`), with every
optional attribute that `from_low_event` may attach; attributes that a branch
does not set are `none` (absent). -/
structure HighEventL where
  command : String
  nickname : Option NicknameL
  channel : Option String
  message : Option String
  server_name : Option (Option String) := none
  new_nickname : Option NicknameL := none
  text_command : Option String := none
  ctcp : Option String := none
  kicker : Option NicknameL := none
  modes : Option ModesField := none
  srcAttr : Option (Option String) := none
  tgtAttr : Option (Option String) := none
deriving DecidableEq, Repr

/-- `HighEvent.from_low_event` (src/session.py lines 378-564), branch by
branch in source order; `am` is the server's derived argmodes feeding
`_parse_modes`.  The `action` branch always raises: it calls
`server.is_channel`, but `ServerConnection` (src/connection.py) defines no
`is_channel` method, so the attribute access raises `AttributeError`.  In the
`topic` branch the source computes `Nickname(low_event.source)` but binds it
to a variable (`setter`) that is never read, so only its possible exception
is kept and the event's nickname stays `None`. -/
def fromLowEvent (am : List Char) (e : LowEvent) : Except PyErr HighEventL :=
  let command := e.eventtype
  if command = "welcome" then do
    let nickname ← mkNickname e.target true
    let message ← pyGetL e.argument 0
    .ok { command := "connect", nickname := some nickname, channel := none,
          message := some message, server_name := some e.source }
  else if command = "nick" then do
    let old ← mkNickname e.source false
    let newNick ← mkNickname e.source false
    .ok { command := command, nickname := some old, channel := none,
          message := none, new_nickname := some { newNick with name := e.target } }
  else if command = "pubmsg" ∨ command = "pubnotice" then do
    let nickname ← mkNickname e.source false
    let message ← pyGetL e.argument 0
    .ok { command := "text", nickname := some nickname, channel := e.target,
          message := some message, text_command := some command }
  else if command = "privmsg" ∨ command = "privnotice" then do
    let nickname ← mkNickname e.source false
    let message ← pyGetL e.argument 0
    .ok { command := "text", nickname := some nickname, channel := none,
          message := some message, text_command := some command }
  else if command = "ctcp" then do
    let nickname ← mkNickname e.source false
    let c0 ← pyGetL e.argument 0
    .ok { command := command, nickname := some nickname, channel := none,
          message := some (String.intercalate " " (e.argument.drop 1)),
          ctcp := some c0 }
  else if command = "action" then do
    let _nickname ← mkNickname e.source false
    .error .attributeError
  else if command = "ctcpreply" then do
    let nickname ← mkNickname e.source false
    let c0 ← pyGetL e.argument 0
    .ok { command := command, nickname := some nickname, channel := none,
          message := some (String.intercalate " " (e.argument.drop 1)),
          ctcp := some c0 }
  else if command = "quit" then do
    let nickname ← mkNickname e.source false
    let message ← pyGetL e.argument 0
    .ok { command := command, nickname := some nickname, channel := none,
          message := some message }
  else if command = "join" ∨ command = "part" then do
    let nickname ← mkNickname e.source false
    .ok { command := command, nickname := some nickname, channel := e.target,
          message := none }
  else if command = "kick" then do
    let kicker ← mkNickname e.source false
    let t ← pyGetL e.argument 0
    let target ← mkNickname (some t) true
    let reason ← pyGetL e.argument 1
    .ok { command := command, nickname := some target, channel := e.target,
          message := some reason, kicker := some kicker }
  else if command = "invite" then do
    let nickname ← mkNickname e.source false
    let c0 ← pyGetL e.argument 0
    .ok { command := command, nickname := some nickname, channel := some c0,
          message := none }
  else if command = "mode" ∨ command = "umode" then do
    let setter ← mkNickname e.source false
    let ms := parseModes am (String.intercalate " " e.argument)
    if 1 < ms.length then
      .ok { command := command, nickname := some setter, channel := e.target,
            message := none, modes := some (.many ms) }
    else
      match ms with
      | [] => .error .indexError
      | m :: _ =>
        .ok { command := command, nickname := some setter, channel := e.target,
              message := none, modes := some (.one m) }
  else if command = "topic" ∨ command = "currenttopic" ∨ command = "notopic" then do
    let channel ← (if command = "currenttopic" then do
        let c0 ← pyGetL e.argument 0
        pure (some c0)
      else pure e.target)
    let _ ← (if command = "topic" then do
        let _setter ← mkNickname e.source false
        pure ()
      else pure ())
    let topic ← (if command = "currenttopic" then
        pure (String.intercalate " " (e.argument.drop 1))
      else if command = "topic" then pyGetL e.argument 0
      else pure "")
    .ok { command := "topic", nickname := none, channel := channel,
          message := some topic }
  else if command = "all_raw_messages" then do
    let message ← pyGetL e.argument 0
    .ok { command := "raw", nickname := none, channel := none,
          message := some message }
  else do
    let message ← pyGetL e.argument 0
    .ok { command := command, nickname := none, channel := none,
          message := some message, srcAttr := some e.source,
          tgtAttr := some e.target }

/-- A declarative handler entry as stored by the `event_handler` decorator of
src/session.py: filter lists, required-mode string and the compiled message
pattern.  The compiled regular expression is modelled as an abstract matching
function, attached only when the source pattern text was nonempty. -/
structure DeclHandler where
  events : List String
  channels : List String
  nicks : List String
  modes : String
  rx : Option (String → Bool)

/-- Python truthiness of an optional string: `None` and the empty string are
falsy. -/
def truthyO : Option String → Bool
  | none => false
  | some s => s != ""

/-- Python `x in l` where `x` may be `None`: `None` is never an element of a
string list. -/
def optMem (o : Option String) (l : List String) : Bool :=
  match o with
  | none => false
  | some s => l.contains s

/-- The registration normalization of `event_handler`
(src/session.py lines 590-667): events, channels and nicks are lower-cased;
the pattern is compiled only when its source text is nonempty (`rxFun` stands
for the compiled pattern's matching function). -/
def mkHandler (events channels nicks : List String) (modes : String)
    (rxSrc : String) (rxFun : String → Bool) : DeclHandler :=
  { events := events.map pyToLower, channels := channels.map pyToLower,
    nicks := nicks.map pyToLower, modes := modes,
    rx := if rxSrc = "" then none else some rxFun }

/-- The per-handler filter chain of `Session._handle_event`
(src/session.py lines 286-322), deciding whether one registered handler's
callback fires for a dispatched high-level event.  The inputs are the fields
the loop reads: the event's command, channel, the nickname's name, and the
message; `hasany` embeds the external tracker query
`server.hasanymodes(channel, nickname, modes)`.  Mirrors the source exactly:
every filter is skipped when empty, the channel and nick are lower-cased
first, the permission check runs only when channel, nickname and the mode
string are all truthy, and the pattern check runs only when both the message
and the compiled pattern are truthy. -/
def codeFires (hasany : String → String → String → Bool) (h : DeclHandler)
    (command : String) (channel0 : Option String) (nick0 : Option String)
    (message : Option String) : Bool :=
  let channel := channel0.map pyToLower
  let nickname := nick0.map pyToLower
  if !h.events.isEmpty && !(h.events.contains (pyToLower command)) then false
  else if !h.channels.isEmpty && !(optMem channel h.channels) then false
  else if !h.nicks.isEmpty && !(optMem nickname h.nicks) then false
  else if truthyO channel && truthyO nickname && !(h.modes == "") &&
          !(hasany (channel.getD "") (nickname.getD "") h.modes) then false
  else
    match h.rx with
    | some rx => if truthyO message && !(rx (message.getD "")) then false else true
    | none => true

/-- The claim's reading of the filter chain (spec §4.7): the callback fires
exactly when every non-empty filter passes, where "if a pattern is set, the
event's message must match it" — with no exception for events that carry no
message (an absent message matches no pattern). -/
def claimMatchC6 (hasany : String → String → String → Bool) (h : DeclHandler)
    (command : String) (channel0 : Option String) (nick0 : Option String)
    (message : Option String) : Bool :=
  (h.events.isEmpty || h.events.contains (pyToLower command)) &&
  (h.channels.isEmpty || optMem (channel0.map pyToLower) h.channels) &&
  (h.nicks.isEmpty || optMem (nick0.map pyToLower) h.nicks) &&
  (!(truthyO (channel0.map pyToLower) && truthyO (nick0.map pyToLower) &&
     !(h.modes == "")) ||
   hasany ((channel0.map pyToLower).getD "")
     ((nick0.map pyToLower).getD "") h.modes) &&
  (match h.rx with
   | some rx => (match message with | some m => rx m | none => false)
   | none => true)

/-- The amended reading, matching the source: identical to the claim's
reading except that the pattern filter applies only when the event's message
is truthy (present and nonempty); an event whose message is absent or empty
passes a set pattern filter. -/
def amendedMatchC6 (hasany : String → String → String → Bool) (h : DeclHandler)
    (command : String) (channel0 : Option String) (nick0 : Option String)
    (message : Option String) : Bool :=
  (h.events.isEmpty || h.events.contains (pyToLower command)) &&
  (h.channels.isEmpty || optMem (channel0.map pyToLower) h.channels) &&
  (h.nicks.isEmpty || optMem (nick0.map pyToLower) h.nicks) &&
  (!(truthyO (channel0.map pyToLower) && truthyO (nick0.map pyToLower) &&
     !(h.modes == "")) ||
   hasany ((channel0.map pyToLower).getD "")
     ((nick0.map pyToLower).getD "") h.modes) &&
  (match h.rx with
   | some rx => !truthyO message || rx (message.getD "")
   | none => true)

/-- A global handler entry, the `(priority, handler)` tuple that
`IRC.add_global_handler` inserts with `bisect.insort`.  The callback is
identified by a natural number standing for the CPython object address:
Python 2's tuple comparison falls back to comparing the handler objects
themselves when priorities tie, and same-type objects without comparison
methods compare by address. -/
abbrev GEntry := Int × Nat

/-- Strict tuple order on `(priority, handler-address)`. -/
def gLt (a b : GEntry) : Prop := a.1 < b.1 ∨ (a.1 = b.1 ∧ a.2 < b.2)

/-- Reflexive tuple order on `(priority, handler-address)`. -/
def gLe (a b : GEntry) : Prop := a.1 < b.1 ∨ (a.1 = b.1 ∧ a.2 ≤ b.2)

instance (a b : GEntry) : Decidable (gLt a b) := by unfold gLt; infer_instance

instance (a b : GEntry) : Decidable (gLe a b) := by unfold gLe; infer_instance

/-- `bisect.insort(l, x)` (src/connection.py line 305): insert `x` at the
rightmost position that keeps `l` sorted under the tuple order, i.e. before
the first element strictly greater than `x`. -/
def insortG (x : GEntry) : List GEntry → List GEntry
  | [] => [x]
  | y :: ys => if gLt x y then x :: y :: ys else y :: insortG x ys

/-- The global handler table `IRC.handlers`, a dict from event type to its
sorted entry list, modelled as a total function with `[]` standing for an
absent key (matching `self.handlers.get(k, [])`). -/
abbrev HTable := String → List GEntry

/-- `IRC.add_global_handler(event, handler, priority)`
(src/connection.py lines 282-305): ensure the event's list exists, then
`bisect.insort` the `(priority, handler)` tuple into it. -/
def addGlobalHandler (t : HTable) (event : String) (pri : Int) (cb : Nat) : HTable :=
  fun k => if k = event then insortG (pri, cb) (t event) else t k

/-- Fold a registration sequence into a handler table, starting from the
empty dict of `IRC.__init__`. -/
def regAll (regs : List (String × Int × Nat)) : HTable :=
  regs.foldl (fun t r => addGlobalHandler t r.1 r.2.1 r.2.2) (fun _ => [])

/-- The per-connection rate limiter state and outbound queue read by
`Session.send_once` (src/session.py lines 119-151), plus a trace of the
messages actually handed to `send_raw_instant`.  Wall-clock time is modelled
with rationals; the transport is a live socket (with no socket,
`send_raw_instant` would raise `ServerNotConnectedError`, which the
`except AttributeError` in `send_once` does not catch — rate-limiting
behaviour on a live connection is what the claim describes). -/
structure FlowConn where
  send_time : ℚ
  sent_bytes : Nat
  queue : List String
  sent : List String
deriving DecidableEq, Repr

/-- The inner `while` loop of `send_once`: while the queue is non-empty and
`sent_bytes <= 2500`, pop and send the head, adding its UTF-8 encoded length
to the counter; stop as soon as the counter exceeds the budget.  Returns
(messages sent, remaining queue, final counter). -/
def drainQueue : Nat → List String → List String × List String × Nat
  | sb, [] => ([], [], sb)
  | sb, msg :: rest =>
    if sb ≤ 2500 then
      let r := drainQueue (sb + utf8Len msg) rest
      (msg :: r.1, r.2.1, r.2.2)
    else ([], msg :: rest, sb)

/-- One `send_once` pass over one connection (src/session.py lines 126-151):
advance the window by the elapsed `delta`; when it reaches 1.3 seconds reset
the window and the byte counter to zero together; then run the drain loop. -/
def sendOnceConn (delta : ℚ) (c : FlowConn) : FlowConn :=
  let st := c.send_time + delta
  let st1 := if st ≥ 13/10 then 0 else st
  let sb0 := if st ≥ 13/10 then 0 else c.sent_bytes
  let r := drainQueue sb0 c.queue
  { send_time := st1, sent_bytes := r.2.2, queue := r.2.1, sent := c.sent ++ r.1 }

/-- Total UTF-8 encoded size of a list of messages. -/
def byteSum (l : List String) : Nat :=
  (l.map utf8Len).sum

/-! ## Event dispatch

`Event` is a `collections.namedtuple` (src/connection.py line 1020), so
`eventtype` is a plain string field; yet `IRC._handle_event` (line 370) and
`ServerConnection._handle_event` (lines 724-725) write `event.eventtype()`,
calling the string.  Calling a string raises `TypeError`, so every dispatch
through these two methods raises. -/

/-- `IRC._handle_event` (src/connection.py lines 367-372).  Line 370 builds
the iteration list `h.get("all_events", []) + h.get(event.eventtype(), [])`:
the wildcard list is fetched, then `event.eventtype()` raises `TypeError`
before the `for` loop starts, so no global handler ever runs — not even the
`_ping_ponger` that `IRC.__init__` always registers.  Returns the executed
handlers (none) together with the raised exception. -/
def ircHandleEventF (t : HTable) (etype : String) : List Nat × Option PyErr :=
  let _wildcard := t "all_events"
  let _etype := etype
  (([] : List Nat), some .typeError)

/-- `ServerConnection._handle_event` (src/connection.py lines 721-726) in the
`IRC`-engine flow: line 723 forwards to `IRC._handle_event`, which raises
`TypeError` at line 370 before running anything; line 724 (which would raise
the same way) and the per-connection loop at 725-726 are never reached.
Returns ((global handlers run, per-connection handlers run), raised
exception). -/
def serverHandleEventF (t : HTable) (connHandlers : String → List Nat)
    (etype : String) : (List Nat × List Nat) × Option PyErr :=
  let _conn := connHandlers
  match ircHandleEventF t etype with
  | (gs, some e) => ((gs, []), some e)
  | (gs, none) => ((gs, []), some .typeError)

/-- `ServerConnection._handle_event` in the `Session`-engine flow (the engine
of src/session.py): `Session._handle_event` reads `event.eventtype` as a
field and returns normally, so line 723 delivers the event to the high-level
layer; then line 724 evaluates `event.eventtype()` on the namedtuple string
field and raises `TypeError`, so no per-connection handler ever runs and the
exception propagates to the dispatching caller.  Returns the events delivered
to the engine (exactly the dispatched one) and the raised exception. -/
def sessionDispatchF (e : LowEvent) : List LowEvent × PyErr :=
  ([e], .typeError)

/-- One iteration of the per-line loop of `ServerConnection.process_data`
(src/connection.py lines 562-719) on an already decoded line, in the
Session-engine flow.  An empty line is skipped (line 567).  Otherwise the
`all_raw_messages` event is built and dispatched first (line 573): the
Session engine receives it, and the dispatch then raises `TypeError`
(line 724).  Everything after the dispatch — the prefix bookkeeping, the
regular-expression match, the numeric translation, the `self.sqlite` tracker
accesses, the CTCP loop and the command's own event — is unreachable, the
connection state is unchanged, and the exception propagates uncaught out of
`process_data`. -/
def processLineF (c : ConnPD) (line : String) : PDResult :=
  if line = "" then ⟨[], c, none⟩
  else
    let raw := LowEvent.mk "all_raw_messages" (some (getServerName c)) none [line]
    let r := sessionDispatchF raw
    ⟨r.1, c, some r.2⟩

/-- The `for line in lines:` loop of `process_data` over the decoded lines of
one read: each line is processed in order, and an uncaught exception aborts
the loop (and `process_data`) at once, so lines after the first non-empty one
are never reached. -/
def processLinesF (c : ConnPD) : List String → PDResult
  | [] => ⟨[], c, none⟩
  | line :: rest =>
    let r := processLineF c line
    match r.err with
    | some e => ⟨r.events, r.state, some e⟩
    | none =>
      let r2 := processLinesF r.state rest
      ⟨r.events ++ r2.events, r2.state, r2.err⟩

/-! ## Connection lifecycle: disconnect, connect, reconnect, watchdog -/

/-- The connection-lifecycle state read and written by
`ServerConnection.disconnect`, `connect` and `reconnect`, with traces of the
strings sent through the instant path, the outbound `send_raw` queue, and the
events delivered to the engine.  `lastPing` is `_last_ping`, the
last-activity timestamp read by the `Session.process_once` watchdog; it is
assigned only in `__init__` and in `Session._handle_event`, never by
`disconnect` or `connect`. -/
structure SrvConn where
  connected : Bool
  socket : Option Nat
  server : String
  nickname : String
  username : String
  ircname : String
  password : Option String
  queue : List String
  sentInstant : List String
  events : List LowEvent
  lastPing : Option ℚ
deriving DecidableEq, Repr

/-- `ServerConnection.send_raw_instant` (src/connection.py lines 931-946):
raise `ServerNotConnectedError` when the socket is `None`; otherwise send the
string padded with CR LF (the transport write is modelled as succeeding). -/
def send_raw_instant (s : String) (c : SrvConn) : Except PyErr SrvConn :=
  match c.socket with
  | none => .error .serverNotConnected
  | some _ => .ok { c with sentInstant := c.sentInstant ++ [s ++ "\r\n"] }

/-- The wire text of `ServerConnection.quit` (src/connection.py lines
919-923): `u"QUIT" + (message and (u" :" + message))`, where an empty message
is falsy. -/
def quitLine (message : String) : String :=
  "QUIT" ++ (if message = "" then "" else " :" ++ message)

/-- `ServerConnection.disconnect` (src/connection.py lines 766-785): return
immediately when not connected; otherwise clear the connected flag, send QUIT
through the instant path, close and null the socket (close errors are
swallowed), and dispatch one `disconnect` event
`Event("disconnect", self.server, "", [message])`.  In the Session-engine
flow the event is delivered to the engine, and the dispatch then raises
`TypeError` (line 724), so `disconnect` on a live connection performs all its
effects and then raises instead of returning.  Returns the state at return or
raise together with the raised exception, if any. -/
def disconnectF (message : String) (c : SrvConn) : SrvConn × Option PyErr :=
  if !c.connected then (c, none)
  else
    match send_raw_instant (quitLine message) { c with connected := false } with
    | .error e => ({ c with connected := false }, some e)
    | .ok c2 =>
      let c3 := { c2 with socket := none }
      let r := sessionDispatchF
        (LowEvent.mk "disconnect" (some c3.server) (some "") [message])
      ({ c3 with events := c3.events ++ r.1 }, some r.2)

/-- The post-socket portion of `ServerConnection.connect` (src/connection.py
lines 494-502) on a successful transport connect: set the connected flag,
store the fresh socket, and queue the log-on commands through `send_raw`
(PASS only when the password is truthy, then NICK and USER; `username` and
`ircname` default to the nickname when empty, line 471-472). -/
def doLogin (sock : Nat) (c : SrvConn) : SrvConn :=
  let uname := if c.username = "" then c.nickname else c.username
  let iname := if c.ircname = "" then c.nickname else c.ircname
  let c1 := { c with connected := true, socket := some sock }
  let c2 := if truthyO c1.password
    then { c1 with queue := c1.queue ++ ["PASS " ++ c1.password.getD ""] }
    else c1
  { c2 with queue := c2.queue ++
      ["NICK " ++ c2.nickname, "USER " ++ uname ++ " 0 * :" ++ iname] }

/-- `ServerConnection.connect` (src/connection.py lines 431-503) on the happy
transport path: a connected connection first enters
`disconnect("Changing servers")` (line 463) — which in the Session-engine
flow raises out of its event dispatch, so the log-on is never reached —
otherwise the socket is opened and the log-on commands are queued.
`_last_ping` is never assigned. -/
def connectF (sock : Nat) (c : SrvConn) : SrvConn × Option PyErr :=
  if c.connected then
    match disconnectF "Changing servers" c with
    | (c', some e) => (c', some e)
    | (c', none) => (doLogin sock c', none)
  else (doLogin sock c, none)

/-- `ServerConnection.reconnect` (src/connection.py lines 925-930):
`disconnect(message)` then `connect(...)` with the saved parameters.  On a
connected connection the disconnect half raises `TypeError` out of its event
dispatch, so `connect` is never reached and the connection is left
disconnected. -/
def reconnectF (sock : Nat) (message : String) (c : SrvConn) :
    SrvConn × Option PyErr :=
  match disconnectF message c with
  | (c', some e) => (c', some e)
  | (c', none) => connectF sock c'

/-- The liveness watchdog of `Session.process_once` (src/session.py lines
180-187) for one connection: skip the connection when `_last_ping` is missing
(the `AttributeError` guard at 183-184); when the last-activity age reaches
260 seconds, call `reconnect("Ping timeout: 260 seconds")`.  An exception
from the reconnect propagates out of `process_once` — there is no handler
around the loop. -/
def pingCheckF (sock : Nat) (now : ℚ) (c : SrvConn) : SrvConn × Option PyErr :=
  match c.lastPing with
  | none => (c, none)
  | some lp =>
    if now - lp ≥ 260 then reconnectF sock "Ping timeout: 260 seconds" c
    else (c, none)

/-! ## Order and insertion lemmas for the global handler table -/

theorem gLe_of_not_gLt {a b : GEntry} (h : ¬ gLt a b) : gLe b a := by
  unfold gLt at h
  unfold gLe
  push_neg at h
  rcases lt_trichotomy b.1 a.1 with h1 | h1 | h1
  · exact Or.inl h1
  · exact Or.inr ⟨h1, by omega⟩
  · exact absurd h1 (by omega)

theorem gLe_of_gLt {a b : GEntry} (h : gLt a b) : gLe a b := by
  unfold gLt at h
  unfold gLe
  rcases h with h | ⟨h1, h2⟩
  · exact Or.inl h
  · exact Or.inr ⟨h1, Nat.le_of_lt h2⟩

theorem gLe_trans_gLt {a b c : GEntry} (h1 : gLt a b) (h2 : gLe b c) : gLe a c := by
  unfold gLt at h1
  unfold gLe at h2 ⊢
  rcases h1 with h1 | ⟨h1a, h1b⟩ <;> rcases h2 with h2 | ⟨h2a, h2b⟩
  · exact Or.inl (by omega)
  · exact Or.inl (by omega)
  · exact Or.inl (by omega)
  · exact Or.inr ⟨by omega, by omega⟩

instance : IsAntisymm GEntry gLe := by
  constructor
  intro a b h1 h2
  unfold gLe at h1 h2
  have ha : a.1 = b.1 ∧ a.2 = b.2 := by
    rcases h1 with h1 | ⟨h1a, h1b⟩ <;> rcases h2 with h2 | ⟨h2a, h2b⟩ <;>
      constructor <;> omega
  exact Prod.ext ha.1 ha.2

theorem mem_insortG {b x : GEntry} : ∀ {l : List GEntry},
    b ∈ insortG x l → b = x ∨ b ∈ l := by
  intro l
  induction l with
  | nil => intro h; simp [insortG] at h; exact Or.inl h
  | cons y ys ih =>
    intro h
    rw [insortG] at h
    by_cases h4 : gLt x y
    · rw [if_pos h4] at h
      rcases List.mem_cons.mp h with h5 | h5
      · exact Or.inl h5
      · exact Or.inr h5
    · rw [if_neg h4] at h
      rcases List.mem_cons.mp h with h5 | h5
      · exact Or.inr (h5 ▸ List.mem_cons_self y ys)
      · rcases ih h5 with h6 | h6
        · exact Or.inl h6
        · exact Or.inr (List.mem_cons_of_mem y h6)

theorem insortG_sorted (x : GEntry) (l : List GEntry) (h : List.Sorted gLe l) :
    List.Sorted gLe (insortG x l) := by
  induction l with
  | nil => simp [insortG]
  | cons y ys ih =>
    rw [List.sorted_cons] at h
    by_cases hlt : gLt x y
    · rw [insortG, if_pos hlt, List.sorted_cons]
      refine ⟨?_, by rw [List.sorted_cons]; exact h⟩
      intro b hb
      rcases List.mem_cons.mp hb with hb | hb
      · exact hb ▸ gLe_of_gLt hlt
      · exact gLe_trans_gLt hlt (h.1 b hb)
    · rw [insortG, if_neg hlt, List.sorted_cons]
      constructor
      · intro b hb
        rcases mem_insortG hb with hb2 | hb2
        · exact hb2 ▸ gLe_of_not_gLt hlt
        · exact h.1 b hb2
      · exact ih h.2

theorem insortG_perm (x : GEntry) (l : List GEntry) :
    List.Perm (insortG x l) (x :: l) := by
  induction l with
  | nil => simp [insortG]
  | cons y ys ih =>
    rw [insortG]
    by_cases hlt : gLt x y
    · rw [if_pos hlt]
    · rw [if_neg hlt]
      exact List.Perm.trans (List.Perm.cons y ih) (List.Perm.swap x y ys)

/-! ## Claim theorems -/

/-- Claim C7: parsing `Nickname` from the full hostmask extracts the bare
nick as `name` and keeps the hostmask as `host`; `nickname_only` mode stores
the given string as `name` and leaves the `host` attribute unset (`none`). -/
theorem C7_nickname_roundtrip :
    mkNickname (some "nick!user@host") false =
      .ok ⟨some "nick", some "nick!user@host"⟩ ∧
    ∀ s : String, mkNickname (some s) true = .ok ⟨some s, none⟩ :=
  ⟨rfl, fun _ => rfl⟩

/-- The entries a registration sequence contributes to one event key. -/
def regEntries (ev : String) (regs : List (String × Int × Nat)) : List GEntry :=
  regs.filterMap (fun r => if r.1 = ev then some (r.2.1, r.2.2) else none)

theorem regFold_perm (regs : List (String × Int × Nat)) (t : HTable) (ev : String) :
    List.Perm ((regs.foldl (fun t r => addGlobalHandler t r.1 r.2.1 r.2.2) t) ev)
      (t ev ++ regEntries ev regs) := by
  induction regs generalizing t with
  | nil => simp [regEntries]
  | cons r regs ih =>
    simp only [List.foldl_cons]
    by_cases h : r.1 = ev
    · have e1 : (addGlobalHandler t r.1 r.2.1 r.2.2) ev =
          insortG (r.2.1, r.2.2) (t ev) := by
        unfold addGlobalHandler
        rw [if_pos h.symm, h]
      have e2 : regEntries ev (r :: regs) = (r.2.1, r.2.2) :: regEntries ev regs := by
        unfold regEntries
        rw [List.filterMap_cons, if_pos h]
      rw [e2]
      have step := ih (addGlobalHandler t r.1 r.2.1 r.2.2)
      rw [e1] at step
      refine step.trans ?_
      refine List.Perm.trans (List.Perm.append_right (regEntries ev regs)
        (insortG_perm (r.2.1, r.2.2) (t ev))) ?_
      simpa using List.perm_middle.symm
    · have e1 : (addGlobalHandler t r.1 r.2.1 r.2.2) ev = t ev := by
        unfold addGlobalHandler
        rw [if_neg (fun hc => h hc.symm)]
      have e2 : regEntries ev (r :: regs) = regEntries ev regs := by
        unfold regEntries
        rw [List.filterMap_cons, if_neg h]
      rw [e2]
      have step := ih (addGlobalHandler t r.1 r.2.1 r.2.2)
      rw [e1] at step
      exact step

theorem regFold_sorted (regs : List (String × Int × Nat)) (t : HTable)
    (h : ∀ ev, List.Sorted gLe (t ev)) :
    ∀ ev, List.Sorted gLe ((regs.foldl (fun t r => addGlobalHandler t r.1 r.2.1 r.2.2) t) ev) := by
  induction regs generalizing t with
  | nil => exact h
  | cons r regs ih =>
    simp only [List.foldl_cons]
    refine ih (addGlobalHandler t r.1 r.2.1 r.2.2) ?_
    intro ev
    unfold addGlobalHandler
    by_cases hev : ev = r.1
    · rw [if_pos hev]
      exact insortG_sorted _ _ (h r.1)
    · rw [if_neg hev]
      exact h ev

/-- Claim C8 (amended): each event type's global handler list is kept totally
ordered by ascending priority, with ties between equal priorities broken by
the ordering of the callback objects themselves (their Python 2 tuple
comparison), not by insertion order.  The list holds exactly the entries
registered for that event, and any two registration sequences that are
permutations of each other build the identical list, so dispatch order is
deterministic for a fixed priority assignment and fixed callback
identities. -/
theorem C8_handler_order (regs regs' : List (String × Int × Nat)) (ev : String)
    (hperm : List.Perm regs regs') :
    List.Sorted gLe (regAll regs ev) ∧
    List.Perm (regAll regs ev) (regEntries ev regs) ∧
    regAll regs ev = regAll regs' ev := by
  have hs1 : List.Sorted gLe (regAll regs ev) :=
    regFold_sorted regs (fun _ => []) (fun _ => List.sorted_nil) ev
  have hs2 : List.Sorted gLe (regAll regs' ev) :=
    regFold_sorted regs' (fun _ => []) (fun _ => List.sorted_nil) ev
  have hp1 : List.Perm (regAll regs ev) (regEntries ev regs) := by
    have := regFold_perm regs (fun _ => []) ev
    simpa [regAll] using this
  have hp2 : List.Perm (regAll regs' ev) (regEntries ev regs') := by
    have := regFold_perm regs' (fun _ => []) ev
    simpa [regAll] using this
  refine ⟨hs1, hp1, ?_⟩
  refine List.eq_of_perm_of_sorted ?_ hs1 hs2
  refine hp1.trans (List.Perm.trans ?_ hp2.symm)
  unfold regEntries
  exact hperm.filterMap _

/-- Witness for C8 at two concrete permuted registration sequences. -/
theorem C8_handler_order_witness :
    List.Sorted gLe (regAll [("x", 0, 5), ("x", 0, 3)] "x") ∧
    List.Perm (regAll [("x", 0, 5), ("x", 0, 3)] "x")
      (regEntries "x" [("x", 0, 5), ("x", 0, 3)]) ∧
    regAll [("x", 0, 5), ("x", 0, 3)] "x" = regAll [("x", 0, 3), ("x", 0, 5)] "x" :=
  C8_handler_order [("x", 0, 5), ("x", 0, 3)] [("x", 0, 3), ("x", 0, 5)] "x"
    (List.Perm.swap ("x", 0, 3) ("x", 0, 5) [])

/-- Claim C2 (amended): for every dispatched event, the executed global
handlers are the `all_events` wildcard list followed by the event type's own
list — each kept in ascending `(priority, callback)` order — cut off just
after the first handler returning "NO MORE" (so no later global handler
runs); the per-connection handlers for that event all run regardless of the
stop signal.  Dispatch is a pure function of the table, so subsequent events
are unaffected. -/
theorem boolIfFalse (c y : Bool) : (if c = true then false else y) = (!c && y) := by
  cases c <;> simp

/-- Counterexample for C6 as stated: a handler whose pattern is set (source
text "x", compiled to a matcher that accepts nothing) still fires for a
message-less event — the source checks the pattern only when the message is
truthy, while the claim requires the message to match whenever a pattern is
set. -/
theorem C6_cex :
    codeFires (fun _ _ _ => false) (mkHandler [] [] [] "" "x" (fun _ => false))
      "join" none (some "bob") none = true ∧
    claimMatchC6 (fun _ _ _ => false) (mkHandler [] [] [] "" "x" (fun _ => false))
      "join" none (some "bob") none = false := by
  constructor
  · rfl
  · rfl

/-- Claim C6 (amended): a declarative handler's callback fires for a
dispatched high-level event exactly when every non-empty filter passes —
event type (case-insensitively) in the event filter, lower-cased channel in
the channel filter, lower-cased nick in the nick filter, the permission query
when channel, nick and the required-mode string are all non-empty — and, when
a pattern is set, either the event's message is absent or empty, or it
matches the pattern. -/
theorem C6_filter_match (hasany : String → String → String → Bool)
    (h : DeclHandler) (command : String) (channel0 : Option String)
    (nick0 : Option String) (message : Option String) :
    codeFires hasany h command channel0 nick0 message =
      amendedMatchC6 hasany h command channel0 nick0 message := by
  unfold codeFires amendedMatchC6
  rcases h.rx with _ | rx
  · simp only [boolIfFalse]
    cases h.events.isEmpty <;> cases h.channels.isEmpty <;> cases h.nicks.isEmpty <;>
      simp [Bool.and_assoc, Bool.or_assoc]
  · simp only [boolIfFalse]
    cases h.events.isEmpty <;> cases h.channels.isEmpty <;> cases h.nicks.isEmpty <;>
      cases truthyO message <;>
      simp [Bool.and_assoc, Bool.or_assoc]

theorem byteSum_nil : byteSum [] = 0 := rfl

theorem byteSum_cons (a : String) (l : List String) :
    byteSum (a :: l) = utf8Len a + byteSum l := by
  simp [byteSum]

theorem drainQueue_spec (q : List String) : ∀ sb : Nat,
    ∃ k, k ≤ q.length ∧
      (drainQueue sb q).1 = q.take k ∧
      (drainQueue sb q).2.1 = q.drop k ∧
      (drainQueue sb q).2.2 = sb + byteSum (q.take k) ∧
      (∀ j, j < k → sb + byteSum (q.take j) ≤ 2500) ∧
      (k < q.length → 2500 < sb + byteSum (q.take k)) ∧
      (q ≠ [] → sb ≤ 2500 → 1 ≤ k) := by
  induction q with
  | nil =>
    intro sb
    exact ⟨0, by simp [drainQueue, byteSum_nil]⟩
  | cons msg rest ih =>
    intro sb
    by_cases hsb : sb ≤ 2500
    · obtain ⟨k, hk, h1, h2, h3, h4, h5, _⟩ := ih (sb + utf8Len msg)
      have he : drainQueue sb (msg :: rest) =
          (msg :: (drainQueue (sb + utf8Len msg) rest).1,
           (drainQueue (sb + utf8Len msg) rest).2.1,
           (drainQueue (sb + utf8Len msg) rest).2.2) := by
        rw [drainQueue, if_pos hsb]
      refine ⟨k + 1, by simpa using hk, ?_, ?_, ?_, ?_, ?_, fun _ _ => Nat.le_add_left 1 k⟩
      · rw [he, List.take_succ_cons, h1]
      · rw [he, List.drop_succ_cons, h2]
      · rw [he, List.take_succ_cons, byteSum_cons, h3]
        omega
      · intro j hj
        cases j with
        | zero => simpa [byteSum_nil] using hsb
        | succ j' =>
          rw [List.take_succ_cons, byteSum_cons]
          have := h4 j' (by omega)
          omega
      · intro hlt
        rw [List.take_succ_cons, byteSum_cons]
        have := h5 (by simpa using hlt)
        omega
    · have he : drainQueue sb (msg :: rest) = ([], msg :: rest, sb) := by
        rw [drainQueue, if_neg hsb]
      refine ⟨0, by simp, ?_, ?_, ?_, ?_, ?_, ?_⟩
      · rw [he]; rfl
      · rw [he]; rfl
      · rw [he]; simp [byteSum_nil]
      · intro j hj; omega
      · intro _; simp [byteSum_nil]; omega
      · intro _ hc; exact absurd hc hsb

theorem sendOnce_reset (c : FlowConn) (delta : ℚ)
    (hcond : c.send_time + delta ≥ 13/10) :
    sendOnceConn delta c =
      { send_time := 0, sent_bytes := (drainQueue 0 c.queue).2.2,
        queue := (drainQueue 0 c.queue).2.1,
        sent := c.sent ++ (drainQueue 0 c.queue).1 } := by
  simp only [sendOnceConn]
  rw [if_pos hcond, if_pos hcond]

theorem drainAllWindows (n : Nat) : ∀ c : FlowConn, c.queue.length ≤ n →
    c.send_time = 0 →
    ∃ m, ((fun s => sendOnceConn (13/10) s)^[m] c).queue = [] ∧
         ((fun s => sendOnceConn (13/10) s)^[m] c).sent = c.sent ++ c.queue := by
  induction n with
  | zero =>
    intro c hlen _
    have hq : c.queue = [] := List.length_eq_zero.mp (Nat.le_zero.mp hlen)
    exact ⟨0, by simp [hq], by simp [hq]⟩
  | succ n ih =>
    intro c hlen hst
    cases hq : c.queue with
    | nil => exact ⟨0, by simp [hq], by simp [hq]⟩
    | cons m0 rest =>
      have hcond : c.send_time + 13/10 ≥ (13:ℚ)/10 := by
        rw [hst]; norm_num
      have he := sendOnce_reset c (13/10) hcond
      obtain ⟨k, hk, h1, h2, _, _, _, h6⟩ := drainQueue_spec c.queue 0
      have hk1 : 1 ≤ k := h6 (by rw [hq]; simp) (by omega)
      have hql : (sendOnceConn (13/10) c).queue.length ≤ n := by
        rw [he]
        simp only [h2, List.length_drop]
        rw [hq] at hlen ⊢
        simp at hlen ⊢
        omega
      have hst' : (sendOnceConn (13/10) c).send_time = 0 := by rw [he]
      obtain ⟨m, hm1, hm2⟩ := ih (sendOnceConn (13/10) c) hql hst'
      refine ⟨m + 1, ?_, ?_⟩
      · rw [Function.iterate_succ_apply]
        exact hm1
      · rw [Function.iterate_succ_apply, hm2, he]
        simp only [h1, h2]
        rw [List.append_assoc, List.take_append_drop, hq]

/-- Claim C3: one `send_once` pass whose accumulated window time reaches 1.3
seconds resets the window timer and byte counter together (the byte budget
restarts from zero and the post-state window is zero); it then sends exactly
the queue prefix determined by the 2,500-byte budget — each message is sent
only while the counter before it is at most 2,500, the counter accumulates
encoded byte lengths, at least one message is sent when the queue is
non-empty, and when a remainder is left the prefix already exceeded the
budget; iterating further 1.3-second windows sends the remainder, in order,
until the queue is empty. -/
theorem C3_flow_control (delta : ℚ) (c : FlowConn)
    (h : (13:ℚ)/10 ≤ c.send_time + delta) :
    (sendOnceConn delta c).send_time = 0 ∧
    (∃ k, k ≤ c.queue.length ∧
      (sendOnceConn delta c).sent = c.sent ++ c.queue.take k ∧
      (sendOnceConn delta c).queue = c.queue.drop k ∧
      (∀ j, j < k → byteSum (c.queue.take j) ≤ 2500) ∧
      (k < c.queue.length → 2500 < byteSum (c.queue.take k)) ∧
      (c.queue ≠ [] → 1 ≤ k)) ∧
    (∃ n, ((fun s => sendOnceConn (13/10) s)^[n] (sendOnceConn delta c)).queue = [] ∧
          ((fun s => sendOnceConn (13/10) s)^[n] (sendOnceConn delta c)).sent =
            c.sent ++ c.queue) := by
  have he := sendOnce_reset c delta h
  obtain ⟨k, hk, h1, h2, h3, h4, h5, h6⟩ := drainQueue_spec c.queue 0
  refine ⟨by rw [he], ⟨k, hk, ?_, ?_, ?_, ?_, fun hne => h6 hne (by omega)⟩, ?_⟩
  · rw [he]; simp only [h1]
  · rw [he]; simp only [h2]
  · intro j hj
    have := h4 j hj
    omega
  · intro hlt
    have := h5 hlt
    omega
  · obtain ⟨m, hm1, hm2⟩ := drainAllWindows (sendOnceConn delta c).queue.length
      (sendOnceConn delta c) (Nat.le_refl _) (by rw [he])
    refine ⟨m, hm1, ?_⟩
    rw [hm2, he]
    simp only [h1, h2]
    rw [List.append_assoc, List.take_append_drop]

/-- Witness for C3 at a concrete connection whose two queued messages exceed
the 2,500-byte budget only together. -/
theorem C3_flow_control_witness :
    ((13:ℚ)/10 ≤ (0:ℚ) + 13/10) ∧
    ((sendOnceConn (13/10) ⟨0, 77, ["aa", "bb"], []⟩).send_time = 0 ∧
    (∃ k, k ≤ (["aa", "bb"] : List String).length ∧
      (sendOnceConn (13/10) ⟨0, 77, ["aa", "bb"], []⟩).sent =
        [] ++ (["aa", "bb"] : List String).take k ∧
      (sendOnceConn (13/10) ⟨0, 77, ["aa", "bb"], []⟩).queue =
        (["aa", "bb"] : List String).drop k ∧
      (∀ j, j < k → byteSum ((["aa", "bb"] : List String).take j) ≤ 2500) ∧
      (k < (["aa", "bb"] : List String).length →
        2500 < byteSum ((["aa", "bb"] : List String).take k)) ∧
      ((["aa", "bb"] : List String) ≠ [] → 1 ≤ k)) ∧
    (∃ n, ((fun s => sendOnceConn (13/10) s)^[n]
            (sendOnceConn (13/10) ⟨0, 77, ["aa", "bb"], []⟩)).queue = [] ∧
          ((fun s => sendOnceConn (13/10) s)^[n]
            (sendOnceConn (13/10) ⟨0, 77, ["aa", "bb"], []⟩)).sent =
            [] ++ ["aa", "bb"])) :=
  ⟨by norm_num, C3_flow_control (13/10) ⟨0, 77, ["aa", "bb"], []⟩ (by norm_num)⟩

/-- Witness for C10 on a concrete JOIN line: the tracker access raises
`AttributeError` after the raw event and before the `join` event. -/
theorem wordsAux_chars (p : Char → Bool) : ∀ (l : List Char) (cur : List Char),
    (∀ ch ∈ cur, p ch = false) →
    ∀ w ∈ wordsAux p cur l, ∀ ch ∈ w, p ch = false := by
  intro l
  induction l with
  | nil =>
    intro cur hcur w hw ch hch
    rw [wordsAux] at hw
    by_cases hc : cur = []
    · rw [if_pos hc] at hw
      simp at hw
    · rw [if_neg hc] at hw
      simp at hw
      subst hw
      exact hcur ch (List.mem_reverse.mp hch)
  | cons c cs ih =>
    intro cur hcur w hw ch hch
    rw [wordsAux] at hw
    by_cases hpc : p c
    · rw [if_pos hpc] at hw
      by_cases hc : cur = []
      · rw [if_pos hc] at hw
        exact ih [] (by simp) w hw ch hch
      · rw [if_neg hc] at hw
        rcases List.mem_cons.mp hw with hw | hw
        · subst hw
          exact hcur ch (List.mem_reverse.mp hch)
        · exact ih [] (by simp) w hw ch hch
    · rw [if_neg hpc] at hw
      refine ih (c :: cur) ?_ w hw ch hch
      intro ch2 hch2
      rcases List.mem_cons.mp hch2 with h | h
      · subst h
        simpa using hpc
      · exact hcur ch2 h

theorem walkModes_mem (am : List Char) : ∀ (cs : List Char) (sign : Char)
    (ts : List String), (sign = '+' ∨ sign = '-') →
    ∀ m ∈ walkModes am sign cs ts,
      (m.sign = '+' ∨ m.sign = '-') ∧ m.letter ∈ cs ∧
      ¬(m.letter = '+' ∨ m.letter = '-') := by
  intro cs
  induction cs with
  | nil =>
    intro sign ts _ m hm
    simp [walkModes] at hm
  | cons ch cs ih =>
    intro sign ts hsign m hm
    rw [walkModes] at hm
    by_cases hch : ch = '+' ∨ ch = '-'
    · rw [if_pos hch] at hm
      obtain ⟨h1, h2, h3⟩ := ih ch ts hch m hm
      exact ⟨h1, List.mem_cons_of_mem ch h2, h3⟩
    · rw [if_neg hch] at hm
      by_cases ham : ch ∈ am
      · rw [if_pos ham] at hm
        rcases List.mem_cons.mp hm with hm | hm
        · subst hm
          exact ⟨hsign, List.mem_cons_self ch cs, hch⟩
        · obtain ⟨h1, h2, h3⟩ := ih sign ts.tail hsign m hm
          exact ⟨h1, List.mem_cons_of_mem ch h2, h3⟩
      · rw [if_neg ham] at hm
        rcases List.mem_cons.mp hm with hm | hm
        · subst hm
          exact ⟨hsign, List.mem_cons_self ch cs, hch⟩
        · obtain ⟨h1, h2, h3⟩ := ih sign ts hsign m hm
          exact ⟨h1, List.mem_cons_of_mem ch h2, h3⟩

theorem parseModes_mem (am : List Char) (s : String) (m : ModeChange)
    (hm : m ∈ parseModes am s) :
    (m.sign = '+' ∨ m.sign = '-') ∧ ¬(m.letter = '+' ∨ m.letter = '-') ∧
    m.letter.isWhitespace = false := by
  unfold parseModes at hm
  cases hws : pySplitWs s with
  | nil => rw [hws] at hm; simp at hm
  | cons modeword targets =>
    rw [hws] at hm
    obtain ⟨h1, h2, h3⟩ := walkModes_mem am modeword.toList '+' targets (Or.inl rfl) m hm
    refine ⟨h1, h3, ?_⟩
    have hmem : modeword ∈ pySplitWs s := by
      rw [hws]; exact List.mem_cons_self _ _
    unfold pySplitWs at hmem
    obtain ⟨w, hw1, hw2⟩ := List.mem_map.mp hmem
    have hchars := wordsAux_chars (fun c => c.isWhitespace) s.toList [] (by simp) w hw1
    have : m.letter ∈ w := by
      rw [← hw2] at h2
      simpa using h2
    simpa using hchars m.letter this

theorem reEmit_argument (e : LowEvent) (m : ModeChange) :
    (reEmit e m).argument = [String.mk [m.sign, m.letter], m.param.getD ""] := rfl

theorem parseModes_reEmit (am : List Char) (m : ModeChange) (p : String)
    (hs : m.sign = '+' ∨ m.sign = '-') (hl : ¬(m.letter = '+' ∨ m.letter = '-'))
    (hw : m.letter.isWhitespace = false) :
    ∃ q, parseModes am
        (String.intercalate " " [String.mk [m.sign, m.letter], p]) =
      [⟨m.sign, m.letter, q⟩] := by
  have hsw : m.sign.isWhitespace = false := by
    rcases hs with h | h <;> rw [h] <;> decide
  have htl : (String.intercalate " " [String.mk [m.sign, m.letter], p]).toList
      = m.sign :: m.letter :: ' ' :: p.toList := by
    simp [String.intercalate, String.intercalate.go, String.toList, String.data_append]
  have hwords : wordsAux (fun c => c.isWhitespace) []
      (m.sign :: m.letter :: ' ' :: p.toList) =
      [m.letter, m.sign].reverse :: wordsAux (fun c => c.isWhitespace) [] p.toList := by
    rw [wordsAux, if_neg (by simp [hsw]), wordsAux, if_neg (by simp [hw]),
        wordsAux, if_pos (by decide), if_neg (by simp)]
  have hsplit : pySplitWs (String.intercalate " " [String.mk [m.sign, m.letter], p]) =
      String.mk [m.sign, m.letter] ::
        (wordsAux (fun c => c.isWhitespace) [] p.toList).map String.mk := by
    unfold pySplitWs
    rw [htl, hwords]
    simp
  unfold parseModes
  rw [hsplit]
  dsimp only [String.toList]
  rw [walkModes, if_pos hs, walkModes, if_neg hl]
  by_cases ham : m.letter ∈ am
  · rw [if_pos ham, walkModes]
    exact ⟨_, rfl⟩
  · rw [if_neg ham, walkModes]
    exact ⟨none, rfl⟩

theorem flatten_singletons {α β : Type} (f : α → β) :
    ∀ l : List α, (l.map (fun x => [f x])).flatten = l.map f := by
  intro l
  induction l with
  | nil => rfl
  | cons a l ih => simp [ih]

/-- Claim C1: a low-level `mode`/`umode` event whose mode string decodes to
more than one elementary change is re-emitted by the Session as one low-level
event per elementary change, with argument `[sign+mode, parameter]`; each
re-emitted event decodes to exactly one elementary change, so high-level
translation (and hence the handler registry) receives only single-change mode
events, whose `modes` attribute holds a single tuple. -/
theorem C1_mode_fanout (am : List Char) (e : LowEvent)
    (het : e.eventtype = "mode" ∨ e.eventtype = "umode")
    (hms : 1 < (parseModes am (String.intercalate " " e.argument)).length) :
    sessionPreparse am e =
      (parseModes am (String.intercalate " " e.argument)).map (reEmit e) ∧
    (∀ m ∈ parseModes am (String.intercalate " " e.argument),
      (reEmit e m).argument = [String.mk [m.sign, m.letter], m.param.getD ""] ∧
      (parseModes am (String.intercalate " " (reEmit e m).argument)).length = 1) ∧
    (∀ l ∈ sessionPreparse am e, ∀ hv : HighEventL,
      fromLowEvent am l = .ok hv → ∃ mc, hv.modes = some (.one mc)) := by
  have hone : ∀ m ∈ parseModes am (String.intercalate " " e.argument), ∃ q,
      parseModes am (String.intercalate " " (reEmit e m).argument) =
        [⟨m.sign, m.letter, q⟩] := by
    intro m hm
    obtain ⟨h1, h2, h3⟩ := parseModes_mem am _ m hm
    rw [reEmit_argument]
    exact parseModes_reEmit am m _ h1 h2 h3
  have haux1 : ∀ m ∈ parseModes am (String.intercalate " " e.argument),
      sessionPreparseAux am 1 (reEmit e m) = [reEmit e m] := by
    intro m hm
    obtain ⟨q, hq⟩ := hone m hm
    have hetm : (reEmit e m).eventtype = "mode" ∨ (reEmit e m).eventtype = "umode" :=
      het
    simp only [sessionPreparseAux]
    rw [if_pos hetm, hq]
    simp
  have hpre : sessionPreparse am e =
      (parseModes am (String.intercalate " " e.argument)).map (reEmit e) := by
    unfold sessionPreparse
    rw [show sessionPreparseAux am 2 e =
        (if e.eventtype = "mode" ∨ e.eventtype = "umode" then
          (if 1 < (parseModes am (String.intercalate " " e.argument)).length then
            ((parseModes am (String.intercalate " " e.argument)).map
              (fun m => sessionPreparseAux am 1 (reEmit e m))).flatten
          else [e])
        else [e]) from rfl]
    rw [if_pos het, if_pos hms, List.map_congr_left haux1]
    exact flatten_singletons (reEmit e) _
  refine ⟨hpre, fun m hm => ⟨reEmit_argument e m, ?_⟩, ?_⟩
  · obtain ⟨q, hq⟩ := hone m hm
    rw [reEmit_argument] at hq
    rw [reEmit_argument, hq]
    rfl
  · intro l hl hv hok
    rw [hpre] at hl
    obtain ⟨m, hm, rfl⟩ := List.mem_map.mp hl
    obtain ⟨q, hq⟩ := hone m hm
    rcases het with h1 | h1 <;>
    · have hev : (reEmit e m).eventtype = e.eventtype := rfl
      unfold fromLowEvent at hok
      rw [hev, h1] at hok
      simp only [reduceIte] at hok
      cases hsrc : mkNickname (reEmit e m).source false with
      | error er =>
        rw [hsrc] at hok
        exact Except.noConfusion hok
      | ok setter =>
        rw [hsrc] at hok
        rw [hq] at hok
        injection hok with h2
        rw [← h2]
        exact ⟨⟨m.sign, m.letter, q⟩, rfl⟩

/-- A concrete multi-change mode event for the C1 witness:
`:x!y@z MODE #c +o-v alice bob`. -/
def sampleModeEvent : LowEvent :=
  ⟨"mode", some "x!y@z", some "#c", ["+o-v", "alice", "bob"]⟩

/-- Witness for C1 at the concrete two-change mode event. -/
theorem C1_mode_fanout_witness :
    (sampleModeEvent.eventtype = "mode" ∨ sampleModeEvent.eventtype = "umode") ∧
    1 < (parseModes ['o', 'v'] (String.intercalate " " sampleModeEvent.argument)).length ∧
    (sessionPreparse ['o', 'v'] sampleModeEvent =
      (parseModes ['o', 'v'] (String.intercalate " " sampleModeEvent.argument)).map
        (reEmit sampleModeEvent) ∧
     (∀ m ∈ parseModes ['o', 'v'] (String.intercalate " " sampleModeEvent.argument),
       (reEmit sampleModeEvent m).argument =
         [String.mk [m.sign, m.letter], m.param.getD ""] ∧
       (parseModes ['o', 'v']
         (String.intercalate " " (reEmit sampleModeEvent m).argument)).length = 1) ∧
     (∀ l ∈ sessionPreparse ['o', 'v'] sampleModeEvent, ∀ hv : HighEventL,
       fromLowEvent ['o', 'v'] l = .ok hv → ∃ mc, hv.modes = some (.one mc))) :=
  ⟨by decide, by decide,
   C1_mode_fanout ['o', 'v'] sampleModeEvent (by decide) (by decide)⟩

/-! ## Claims settled against the namedtuple dispatch bug -/

/-- Claim C2 (code bug): dispatch never runs any handler at all.  A ping
handler is registered at priority 0 (as `IRC.__init__` itself always does
with `_ping_ponger`) and is stored in the table, yet dispatching a ping event
executes no global handler and no per-connection handler:
`IRC._handle_event` raises `TypeError` at src/connection.py line 370, where
the namedtuple string field `eventtype` is called as a method — contradicting
`add_global_handler`'s documented contract that handlers are called in
priority order with the "NO MORE" cut-off. -/
theorem C2_dispatch_typeerror :
    regAll [("ping", 0, 2)] "ping" = [(0, 2)] ∧
    ircHandleEventF (regAll [("ping", 0, 2)]) "ping" = ([], some .typeError) ∧
    serverHandleEventF (regAll [("ping", 0, 2)]) (fun _ => [7]) "ping" =
      (([], []), some .typeError) :=
  ⟨rfl, rfl, rfl⟩

/-- Claim C4 (code bug): the first `disconnect` on a connected connection
performs every claimed effect — QUIT goes out over the instant path, the
socket is closed and nulled, the connected flag is cleared, and exactly one
`disconnect` event carrying the message is delivered to the engine — but the
dispatch of that event then raises `TypeError` (src/connection.py line 785
calling line 724), so the call raises instead of returning; a second call on
the resulting state is a pure no-op: it sends nothing, emits nothing and does
not raise. -/
theorem C4_disconnect_typeerror :
    disconnectF "bye"
      ⟨true, some 1, "irc.net", "me", "me", "me", none, [], [], [], some 0⟩ =
      (⟨false, none, "irc.net", "me", "me", "me", none, [], ["QUIT :bye\r\n"],
        [LowEvent.mk "disconnect" (some "irc.net") (some "") ["bye"]], some 0⟩,
       some .typeError) ∧
    disconnectF "bye"
      ⟨false, none, "irc.net", "me", "me", "me", none, [], ["QUIT :bye\r\n"],
        [LowEvent.mk "disconnect" (some "irc.net") (some "") ["bye"]], some 0⟩ =
      (⟨false, none, "irc.net", "me", "me", "me", none, [], ["QUIT :bye\r\n"],
        [LowEvent.mk "disconnect" (some "irc.net") (some "") ["bye"]], some 0⟩,
       none) :=
  ⟨rfl, rfl⟩

/-- Claim C5 (code bug): the raw event precedes parsing, but fires only for
the first non-empty line of a `process_data` call.  With two non-empty lines
in one read, the first line's `all_raw_messages` event is delivered to the
engine before any parsing of that line (consistent with the claim's order),
but the dispatch call itself then raises `TypeError` (src/connection.py line
724), aborting the line loop, so the second line's raw event never fires —
even though no parsing failed. -/
theorem C5_raw_dispatch_crash :
    processLinesF ⟨"", "me", []⟩ [":srv 001 me :hi", ":srv 002 me :x"] =
      ⟨[LowEvent.mk "all_raw_messages" (some "") none [":srv 001 me :hi"]],
       ⟨"", "me", []⟩, some .typeError⟩ ∧
    (processLinesF ⟨"", "me", []⟩
      [":srv 001 me :hi", ":srv 002 me :x"]).events.length = 1 :=
  ⟨rfl, rfl⟩

/-- Counterexample for C8 as stated: registering callback 5 and then callback
3 at equal priority 0 stores the entries as [(0, 3), (0, 5)] — the tie is
broken by the tuple comparison of the callback objects themselves
(`bisect.insort` on `(priority, handler)`), not by insertion order, which
would keep [(0, 5), (0, 3)]. -/
theorem C8_cex :
    regAll [("x", 0, 5), ("x", 0, 3)] "x" = [(0, 3), (0, 5)] ∧
    [((0 : Int), (3 : Nat)), (0, 5)] ≠ [(0, 5), (0, 3)] :=
  ⟨rfl, by decide⟩

/-- Claim C9 (code bug): the watchdog never reconnects.  On a connection 260
seconds past its last activity, the `process_once` pass calls
`reconnect("Ping timeout: 260 seconds")`, whose `disconnect` half performs
the disconnect — QUIT with the reason sent, socket nulled, one `disconnect`
event delivered to the engine — and then raises `TypeError` out of the event
dispatch (src/connection.py line 785 calling line 724).  `connect` is never
reached (no NICK/USER is queued), the connection is left disconnected with
`_last_ping` untouched, and the exception escapes `process_once`. -/
theorem C9_watchdog_typeerror :
    pingCheckF 7 260
      ⟨true, some 1, "irc.net", "me", "me", "me", none, [], [], [], some 0⟩ =
      (⟨false, none, "irc.net", "me", "me", "me", none, [],
        ["QUIT :Ping timeout: 260 seconds\r\n"],
        [LowEvent.mk "disconnect" (some "irc.net") (some "")
          ["Ping timeout: 260 seconds"]], some 0⟩,
       some .typeError) := by
  have hge : ((260 : ℚ) - 0 ≥ 260) := by norm_num
  unfold pingCheckF
  dsimp only
  rw [if_pos hge]
  rfl

/-- Counterexample for C10 as stated: on a JOIN line the claim predicts an
`AttributeError` from the missing `self.sqlite` tracker between the
`all_raw_messages` event and the `join` event; the program instead raises
`TypeError` already inside the `all_raw_messages` dispatch itself
(src/connection.py line 724), before the line is even parsed. -/
theorem C10_cex :
    (processLineF ⟨"", "me", []⟩ ":a!b@c JOIN #x").err = some .typeError ∧
    some PyErr.typeError ≠ some PyErr.attributeError :=
  ⟨rfl, by decide⟩

/-- Claim C10 (amended): `ServerConnection.__init__` indeed never assigns
`self.sqlite`, but no tracker access is ever reached: for every non-empty
received line, `process_data` raises `TypeError` during the
`all_raw_messages` dispatch itself (`event.eventtype()` on the namedtuple
string field, src/connection.py line 724), after the raw event is delivered
to the engine and before the line is parsed, leaving the connection state
unchanged; the exception propagates uncaught out of `process_data`. -/
theorem C10_unreachable_tracker (c : ConnPD) (line : String) (h : line ≠ "") :
    processLineF c line =
      ⟨[LowEvent.mk "all_raw_messages" (some (getServerName c)) none [line]],
       c, some .typeError⟩ := by
  unfold processLineF
  rw [if_neg h]
  rfl

/-- Witness for C10 at a concrete JOIN line. -/
theorem C10_unreachable_tracker_witness :
    processLineF ⟨"", "me", []⟩ ":a!b@c JOIN #x" =
      ⟨[LowEvent.mk "all_raw_messages"
          (some (getServerName ⟨"", "me", []⟩)) none [":a!b@c JOIN #x"]],
       ⟨"", "me", []⟩, some .typeError⟩ :=
  C10_unreachable_tracker ⟨"", "me", []⟩ ":a!b@c JOIN #x" (by decide)
